import Mathlib

/-!
Verification of the workflow engine in `pymatgen/io/abinitio/workflows.py`.

Each Python construct used by the claims is embedded shallowly:
pure attribute reads become Lean functions, the mutating handlers
(`on_ok`, `check_status`, `set_workdir`, `allocate`, `submit_tasks`,
`on_dep_ok`, `pickle_dump`) become explicit state-passing functions,
and Python exceptions become `Except` values.  Machine details that the
source leaves to CPython (truthiness of a list, name resolution of an
undefined identifier, attribute lookup of a misspelled attribute) are
embedded explicitly so that the slips in the source stay visible.
-/

namespace Abinitio

/-- Status enum shared by tasks and workflows, totally ordered as in `Node`:
S_INIT < S_LOCKED < S_READY < S_SUB < S_RUN < S_DONE < S_ERROR < S_UNCONVERGED < S_OK. -/
inductive Status where
  | S_INIT
  | S_LOCKED
  | S_READY
  | S_SUB
  | S_RUN
  | S_DONE
  | S_ERROR
  | S_UNCONVERGED
  | S_OK
deriving DecidableEq, Repr, BEq

/-- Numeric level of a status, giving the total order of the enum. -/
def Status.level : Status → Nat
  | .S_INIT => 1
  | .S_LOCKED => 2
  | .S_READY => 3
  | .S_SUB => 4
  | .S_RUN => 5
  | .S_DONE => 6
  | .S_ERROR => 7
  | .S_UNCONVERGED => 8
  | .S_OK => 9

instance : LE Status := ⟨fun a b => a.level ≤ b.level⟩

instance : LT Status := ⟨fun a b => a.level < b.level⟩

instance (a b : Status) : Decidable (a ≤ b) :=
  inferInstanceAs (Decidable (a.level ≤ b.level))

instance (a b : Status) : Decidable (a < b) :=
  inferInstanceAs (Decidable (a.level < b.level))

/-- A task as seen by the scheduler loops of `workflows.py`: its current
status, the snapshot of the statuses of its upstream dependencies
(`task.deps_status`), and the number of CPUs it asks for (`task.tot_ncpus`). -/
structure PyTask where
  status : Status
  deps_status : List Status
  tot_ncpus : Nat
deriving DecidableEq, Repr

namespace PyTask

/-- Second loop body of `Workflow.check_status`: a task whose status is at
most S_SUB and whose dependency statuses are all S_OK is set to S_READY,
any other task is left unchanged. -/
def ready_step (t : PyTask) : PyTask :=
  if t.status ≤ Status.S_SUB ∧ t.deps_status.all (· == Status.S_OK) = true then
    { t with status := Status.S_READY }
  else
    t

end PyTask

/-- Dependency-propagation pass of `Workflow.check_status` (the second
`for task in self` loop); the per-task `task.check_status()` poll of the
external runner has already produced the statuses stored in the list. -/
def check_status (tasks : List PyTask) : List PyTask :=
  tasks.map PyTask.ready_step

/-- `BaseWorkflow.ncpus_reserved`: accumulate `task.tot_ncpus` over the
tasks whose status is S_SUB. -/
def ncpus_reserved (tasks : List PyTask) : Nat :=
  tasks.foldl
    (fun ncpus task =>
      if task.status == Status.S_SUB then ncpus + task.tot_ncpus else ncpus) 0

/-- `BaseWorkflow.ncpus_allocated`: accumulate `task.tot_ncpus` over the
tasks whose status is in the list of S_SUB and S_RUN. -/
def ncpus_allocated (tasks : List PyTask) : Nat :=
  tasks.foldl
    (fun ncpus task =>
      if [Status.S_SUB, Status.S_RUN].contains task.status then
        ncpus + task.tot_ncpus
      else ncpus) 0

/-- `BaseWorkflow.ncpus_inuse`: accumulate `task.tot_ncpus` over the tasks
whose status is S_RUN. -/
def ncpus_inuse (tasks : List PyTask) : Nat :=
  tasks.foldl
    (fun ncpus task =>
      if task.status == Status.S_RUN then ncpus + task.tot_ncpus else ncpus) 0

/-- A flow, reduced to its list of workflows, each a list of tasks. -/
structure PyFlow where
  works : List (List PyTask)

/-- Python attribute lookup on a workflow, restricted to the CPU accounting
attributes defined on `BaseWorkflow`; any other name yields none, which
stands for an AttributeError. -/
def work_getattr (tasks : List PyTask) (name : String) : Option Nat :=
  if name = "ncpus_reserved" then some (ncpus_reserved tasks)
  else if name = "ncpus_allocated" then some (ncpus_allocated tasks)
  else if name = "ncpus_inuse" then some (ncpus_inuse tasks)
  else none

/-- Python `sum` over the generator that reads the named attribute of each
workflow in turn; the first failing attribute lookup aborts the sum. -/
def pysum_attr (name : String) : List (List PyTask) → Option Nat
  | [] => some 0
  | w :: ws =>
    match work_getattr w name with
    | none => none
    | some n => (pysum_attr name ws).map (fun m => n + m)

/-- `AbinitFlow.ncpus_reserved`: `sum(work.ncpus_reverved for work in self)`.
The attribute name in the source is misspelled, so as soon as the flow has
one workflow the lookup raises AttributeError, modelled by none. -/
def flow_ncpus_reserved (f : PyFlow) : Option Nat :=
  pysum_attr "ncpus_reverved" f.works

/-- `AbinitFlow.ncpus_allocated`: `sum(work.ncpus_allocated for work in self)`. -/
def flow_ncpus_allocated (f : PyFlow) : Option Nat :=
  pysum_attr "ncpus_allocated" f.works

/-- `AbinitFlow.ncpus_inuse`: `sum(work.ncpus_inuse for work in self)`. -/
def flow_ncpus_inuse (f : PyFlow) : Option Nat :=
  pysum_attr "ncpus_inuse" f.works

/-- The AttrDict returned by `on_ok` and `on_all_ok`: at least a returncode
and a human-readable message. -/
structure RetVal where
  returncode : Int
  message : String
deriving DecidableEq, Repr

/-- View of an `Except` value as a sum, used to derive decidable equality. -/
def exceptToSum {ε α : Type} : Except ε α → ε ⊕ α
  | Except.error e => Sum.inl e
  | Except.ok a => Sum.inr a

instance {ε α : Type} [DecidableEq ε] [DecidableEq α] :
    DecidableEq (Except ε α) := fun a b =>
  decidable_of_iff (exceptToSum a = exceptToSum b)
    (by cases a <;> cases b <;> simp [exceptToSum])

/-- Observable outcome of one `BaseWorkflow.on_ok` call: the value returned
to the dispatcher (or the uncaught exception, as `Except.error`), the
`_finalized` flag after the call, and whether `dispatcher.send` published
the S_OK signal with the workflow as sender during the call. -/
structure OnOkOut where
  result : Except String RetVal
  finalized : Bool
  published : Bool
deriving DecidableEq, Repr

/-- `BaseWorkflow.on_ok`, called when one child task reaches S_OK.  Inputs:
the statuses of the tasks of the workflow at call time, the `_finalized`
flag before the call, and the behaviour of the subclass hook `on_all_ok`
(`Except.error e` when the hook raises; the source wraps the hook call in
no try block, so a raised exception leaves the function before
`_finalized` is set and before the signal is sent). -/
def on_ok (statuses : List Status) (finalized : Bool)
    (hook : Except String RetVal) : OnOkOut :=
  let all_ok := statuses.all (· == Status.S_OK)
  if all_ok then
    if finalized then
      { result := Except.ok ⟨0, "Workflow has been already finalized"⟩,
        finalized := finalized, published := false }
    else
      match hook with
      | Except.error e =>
        { result := Except.error e, finalized := finalized, published := false }
      | Except.ok r =>
        { result := Except.ok r, finalized := true, published := true }
  else
    { result := Except.ok ⟨1, "Not all tasks are OK!"⟩,
      finalized := finalized, published := false }

/-- A sequence of `on_ok` calls over the lifetime of one workflow, threading
the `_finalized` flag; returns the final flag and how many of the calls
published the S_OK signal of the workflow. -/
def run_on_ok : Bool → List (List Status × Except String RetVal) → Bool × Nat
  | fin, [] => (fin, 0)
  | fin, (sts, hook) :: rest =>
    let out := on_ok sts fin hook
    let tail := run_on_ok out.finalized rest
    (tail.1, (if out.published then 1 else 0) + tail.2)

/-- Modelled from the spec: `Task.is_completed` lives in `tasks.py`, which is
not under src; the spec calls a task completed when it "has reached a
terminal state >= S_DONE". -/
def PyTask.is_completed (t : PyTask) : Bool :=
  decide (Status.S_DONE ≤ t.status)

/-- Modelled from the spec: `Task.can_run` lives in `tasks.py`, which is not
under src; the spec has `fetch_task_to_run` return "the first task in index
order with status == S_READY and all deps at S_OK". -/
def PyTask.can_run (t : PyTask) : Bool :=
  t.status == Status.S_READY && t.deps_status.all (· == Status.S_OK)

/-- Outcome of `BaseWorkflow.fetch_task_to_run`: the StopIteration raised
when every task is completed, the index of the first runnable task, or the
None returned after the possible-deadlock warning is logged. -/
inductive FetchOut where
  | allDone
  | task (i : Nat)
  | warnNone
deriving DecidableEq, Repr

/-- Index of the first task for which `task.can_run` holds. -/
def find_can_run : List PyTask → Option Nat
  | [] => none
  | t :: ts => if t.can_run then some 0 else (find_can_run ts).map (· + 1)

/-- `BaseWorkflow.fetch_task_to_run`: raise StopIteration when every task is
completed, otherwise return the first task with `can_run`, otherwise log
the possible-deadlock warning and return None. -/
def fetch_task_to_run (tasks : List PyTask) : FetchOut :=
  if tasks.all PyTask.is_completed then FetchOut.allDone
  else
    match find_can_run tasks with
    | some i => FetchOut.task i
    | none => FetchOut.warnNone

/-- `IterativeWorkflow.submit_tasks` body.  The strategy producer is a
finite list (`next_task` raises StopIteration when it is exhausted) and
`exit_iteration` is abstracted by the boolean it returns for each value of
`self.niter`.  The result is the list of the `niter` values for which a
task was registered, started and waited on, in order: the loop first
checks `self.niter > self.max_niter > 0`, then pulls the producer, runs
the task, then consults `exit_iteration`. -/
def submit_go (max_niter : Int) (exits : Nat → Bool) :
    Nat → List Nat → List Nat
  | _, [] => []
  | niter, _ :: rest =>
    if (niter : Int) > max_niter ∧ max_niter > 0 then []
    else if exits niter then [niter]
    else niter :: submit_go max_niter exits (niter + 1) rest

/-- `IterativeWorkflow.submit_tasks` sets `self.niter = 1` and enters the
loop. -/
def submit_tasks (max_niter : Int) (exits : Nat → Bool)
    (producer : List Nat) : List Nat :=
  submit_go max_niter exits 1 producer

/-- The same loop with the iteration cap removed, used to state that a
non-positive `max_niter` leaves the iteration count unbounded. -/
def submit_nocap (exits : Nat → Bool) : Nat → List Nat → List Nat
  | _, [] => []
  | niter, _ :: rest =>
    if exits niter then [niter]
    else niter :: submit_nocap exits (niter + 1) rest

/-- A `Dependency` edge as seen by a `Callback`: the identifier of the
upstream node together with its current status (`dep.status` delegates to
the upstream node). -/
structure Dep where
  node_id : Nat
  status : Status
deriving DecidableEq, Repr

/-- A `Callback` record: the deferred workflow factory, its dependency
edges and the `_disabled` latch.  The wrapped function and its data do not
matter for dispatch, so only the dispatch-relevant fields are kept. -/
structure Callback where
  deps : List Dep
  disabled : Bool
deriving DecidableEq, Repr

namespace Callback

/-- Python truthiness of a list value: a list is truthy when non-empty. -/
def pyListTruthy (l : List Bool) : Bool :=
  !l.isEmpty

/-- `Callback.can_execute`: `not self._disabled and [dep.status == Task.S_OK
for dep in self.deps]`.  The second operand is a list comprehension, not an
`all(...)` call, so the Python value of the conjunction is the list itself,
whose truthiness ignores the booleans stored in it. -/
def can_execute (c : Callback) : Bool :=
  !c.disabled && pyListTruthy (c.deps.map (fun dep => dep.status == Status.S_OK))

/-- `Callback.handle_sender`: the sender appears among the upstream nodes of
the dependencies. -/
def handle_sender (c : Callback) (sender : Nat) : Bool :=
  (c.deps.map Dep.node_id).contains sender

/-- `Callback.disable`: latch `_disabled`. -/
def disable (c : Callback) : Callback :=
  { c with disabled := true }

end Callback

/-- `AbinitFlow.on_dep_ok`: walk the callbacks in registration order; a
callback that handles the sender and can execute is invoked and then
disabled.  The result pairs each callback state after the dispatch with
whether it was invoked during the dispatch. -/
def on_dep_ok (sender : Nat) (cbks : List Callback) : List (Callback × Bool) :=
  cbks.map (fun cbk =>
    if cbk.handle_sender sender && cbk.can_execute then (cbk.disable, true)
    else (cbk, false))

/-- `os.path.join` for one component. -/
def pjoin (a b : String) : String :=
  a ++ "/" ++ b

/-- `Workflow.set_workdir`: raise ValueError when a workdir is already set
and differs from the argument, else store `os.path.abspath(workdir)`.
`os.path.abspath` is kept abstract as a function parameter; `cur` is the
stored workdir, none when the attribute is not yet set. -/
def set_workdir (abspath : String → String) (cur : Option String)
    (workdir : String) : Except String String :=
  match cur with
  | some w =>
    if w ≠ workdir then Except.error "ValueError"
    else Except.ok (abspath workdir)
  | none => Except.ok (abspath workdir)

/-- A task as seen by `Workflow.allocate`: the manager and workdir
attributes, none when not yet set. -/
structure ATask where
  manager : Option Nat
  workdir : Option String
deriving DecidableEq, Repr

/-- Canonical per-task directory name `task_i`. -/
def task_dirname (i : Nat) : String :=
  "task_" ++ toString i

/-- Body of the `Workflow.allocate` loop for the task at index `i`: a task
without a manager receives the workflow manager; a task without a workdir
receives the canonical `workdir/task_i`; a task whose workdir differs from
the canonical path raises ValueError. -/
def alloc_one (wf_workdir : String) (wf_manager : Nat) (i : Nat)
    (t : ATask) : Except String ATask :=
  let t1 := if t.manager.isNone then { t with manager := some wf_manager } else t
  let task_workdir := pjoin wf_workdir (task_dirname i)
  match t1.workdir with
  | none => Except.ok { t1 with workdir := some task_workdir }
  | some w =>
    if w ≠ task_workdir then Except.error "ValueError"
    else Except.ok t1

/-- The `Workflow.allocate` loop starting at task index `i`. -/
def allocate_go (wf_workdir : String) (wf_manager : Nat) :
    Nat → List ATask → Except String (List ATask)
  | _, [] => Except.ok []
  | i, t :: ts =>
    match alloc_one wf_workdir wf_manager i t with
    | Except.error e => Except.error e
    | Except.ok t1 =>
      (allocate_go wf_workdir wf_manager (i + 1) ts).map
        (fun rest => t1 :: rest)

/-- `Workflow.allocate` over the enumerated task list. -/
def allocate (wf_workdir : String) (wf_manager : Nat) (tasks : List ATask) :
    Except String (List ATask) :=
  allocate_go wf_workdir wf_manager 0 tasks

/-- The file-system operations `pickle_dump` performs on the canonical
snapshot path: `open(filepath, "wb")` truncates the file, then
`pickle.dump` writes the blob.  There is no sibling temp file and no
rename in the source (the atomic variant is commented out). -/
inductive FsOp where
  | openTrunc
  | writeBlob (blob : List Nat)
deriving DecidableEq, Repr

/-- Effect of one operation on the content visible under the canonical
name (none means the file does not exist). -/
def apply_op (_content : Option (List Nat)) : FsOp → Option (List Nat)
  | FsOp.openTrunc => some []
  | FsOp.writeBlob b => some b

/-- Basename of the pickle database. -/
def PICKLE_FNAME : String :=
  "__workflow__.pickle"

/-- The canonical snapshot path `os.path.join(self.workdir, PICKLE_FNAME)`. -/
def pickle_path (workdir : String) : String :=
  pjoin workdir PICKLE_FNAME

/-- Operation sequence of `AbinitFlow.pickle_dump` (and of
`BaseWorkflow.pickle_dump`, which is identical). -/
def pickle_dump_ops (blob : List Nat) : List FsOp :=
  [FsOp.openTrunc, FsOp.writeBlob blob]

/-- Content visible under the canonical name when `pickle_dump` is
interrupted after its first `k` operations, starting from content `init`. -/
def content_after (init : Option (List Nat)) (blob : List Nat) (k : Nat) :
    Option (List Nat) :=
  ((pickle_dump_ops blob).take k).foldl apply_op init

/-- Node identifiers of a flow, as walked by `AbinitFlow.used_ids`: for
each workflow its id together with the ids of its tasks. -/
structure FlowIds where
  works : List (Nat × List Nat)

/-- Python exceptions reachable from `used_ids` and `generate_new_nodeid`. -/
inductive PyExc where
  | nameError (name : String)
  | assertFailed
deriving DecidableEq, Repr

/-- The `ids` list built by `AbinitFlow.used_ids`: for each work append the
work id, then the ids of its tasks. -/
def collect_ids (f : FlowIds) : List Nat :=
  f.works.foldl (fun ids w => (ids ++ [w.1]) ++ w.2) []

/-- Names bound in the body of `AbinitFlow.used_ids` when the assert line
runs: the argument `self` and the locals `ids` and `used_ids`. -/
def used_ids_locals : List String :=
  ["self", "ids", "used_ids"]

/-- `AbinitFlow.used_ids`: build `ids`, bind `used_ids = set(ids)`, then
evaluate `assert len(ids_set) == len(ids)`.  The name `ids_set` is not
among the bound names, so evaluating the assert raises NameError before
the return statement is reached; the branch guarded by the (statically
false) lookup shows what the assert would compare if the name resolved to
the freshly built set. -/
def used_ids (f : FlowIds) : Except PyExc (List Nat) :=
  let ids := collect_ids f
  let uids := ids.dedup
  if used_ids_locals.contains "ids_set" then
    if uids.length = ids.length then Except.ok uids
    else Except.error PyExc.assertFailed
  else Except.error (PyExc.nameError "ids_set")

/-- Names bound in the body of `AbinitFlow.generate_new_nodeid` after
`import itertools`: the module is bound as `itertools`, but the loop reads
`intertools`. -/
def gen_nodeid_locals : List String :=
  ["self", "used_ids", "itertools"]

/-- `AbinitFlow.generate_new_nodeid`: call `self.used_ids()` (any exception
propagates), then iterate `intertools.count()` looking for an unused id;
the misspelled module name would raise a second NameError, so the guarded
branch that returns the first free id is unreachable either way. -/
def generate_new_nodeid (f : FlowIds) : Except PyExc Nat :=
  match used_ids f with
  | Except.error e => Except.error e
  | Except.ok uids =>
    if gen_nodeid_locals.contains "intertools" then
      Except.ok ((List.range (uids.length + 1)).findIdx
        (fun nid => !uids.contains nid))
    else Except.error (PyExc.nameError "intertools")

/-- C10: for every flow, even one with no workflows, `AbinitFlow.used_ids`
raises NameError on the undefined name `ids_set` before returning, and
`AbinitFlow.generate_new_nodeid`, which calls `used_ids` (and itself reads
the undefined name `intertools`), therefore also always raises and never
returns a fresh node identifier. -/
theorem used_ids_always_raises (f : FlowIds) :
    used_ids f = Except.error (PyExc.nameError "ids_set") ∧
    generate_new_nodeid f = Except.error (PyExc.nameError "ids_set") := by
  have hmiss : ¬ ("ids_set" ∈ used_ids_locals) := by decide
  constructor
  · simp [used_ids, hmiss]
  · simp [generate_new_nodeid, used_ids, hmiss]

/-- C3 counterexample: interrupting `pickle_dump` right after the open
leaves an empty file under the canonical name, which is neither the prior
snapshot nor the new one, so the dump is not crash-safe as claimed. -/
theorem pickle_dump_not_atomic :
    ¬ (∀ (init : Option (List Nat)) (blob : List Nat) (k : Nat),
        content_after init blob k = init ∨ content_after init blob k = some blob) := by
  intro h
  have hbad := h (some [1]) [2] 1
  revert hbad
  decide

/-- C3 amended: `pickle_dump` opens the canonical name
`flow.workdir/__workflow__.pickle` directly (truncating any existing
snapshot) and then writes the blob; no sibling temp file and no rename are
used, so before the dump the old content is visible, between the open and
the write an empty truncated file is visible, and only after the write
completes is the new snapshot visible. -/
theorem pickle_dump_truncates (init : Option (List Nat)) (blob : List Nat) :
    content_after init blob 0 = init ∧
    content_after init blob 1 = some [] ∧
    content_after init blob 2 = some blob ∧
    pickle_path "flowdir" = "flowdir/__workflow__.pickle" :=
  ⟨rfl, rfl, rfl, rfl⟩

/-- C1: with a single enabled callback whose only dependency (node 7) is at
S_RUN, dispatching `on_dep_ok` with sender 7 invokes and disables the
callback even though the dependency is not at S_OK: `can_execute` tests the
truthiness of the comprehension list `[dep.status == Task.S_OK for dep in
self.deps]` instead of `all` of it, so any non-empty dependency list
passes.  The sender and disabled gates do hold: a sender outside the deps
is not handled, and a disabled callback is not invoked. -/
theorem on_dep_ok_fires_with_pending_dep :
    (Callback.can_execute ⟨[⟨7, Status.S_RUN⟩], false⟩ = true) ∧
    ((⟨[⟨7, Status.S_RUN⟩], false⟩ : Callback).deps.all
      (fun dep => dep.status == Status.S_OK) = false) ∧
    (on_dep_ok 7 [⟨[⟨7, Status.S_RUN⟩], false⟩] =
      [(⟨[⟨7, Status.S_RUN⟩], true⟩, true)]) ∧
    (on_dep_ok 9 [⟨[⟨7, Status.S_RUN⟩], false⟩] =
      [(⟨[⟨7, Status.S_RUN⟩], false⟩, false)]) ∧
    (on_dep_ok 7 [⟨[⟨7, Status.S_OK⟩], true⟩] =
      [(⟨[⟨7, Status.S_OK⟩], true⟩, false)]) := by
  decide

/-- Helper: a publication by `on_ok` implies all tasks were at S_OK, the
workflow was not yet finalized, and the flag is latched by the call; and a
call that does not publish leaves the flag unchanged. -/
theorem on_ok_flag_facts (sts : List Status) (fin : Bool)
    (hook : Except String RetVal) :
    ((on_ok sts fin hook).published = true →
      sts.all (· == Status.S_OK) = true ∧ fin = false ∧
      (on_ok sts fin hook).finalized = true) ∧
    ((on_ok sts fin hook).published = false →
      (on_ok sts fin hook).finalized = fin) := by
  by_cases hall : sts.all (· == Status.S_OK) = true <;>
    cases fin <;> cases hook <;>
      simp [on_ok, hall]

/-- Helper: once the flag is latched, later calls never publish again and
the flag stays latched, so the remaining trace counts zero publications. -/
theorem run_on_ok_after_final (trace : List (List Status × Except String RetVal)) :
    run_on_ok true trace = (true, 0) := by
  induction trace with
  | nil => rfl
  | cons step rest ih =>
    obtain ⟨sts, hook⟩ := step
    have hfin : (on_ok sts true hook).finalized = true := by
      by_cases hall : sts.all (· == Status.S_OK) = true <;> cases hook <;>
        simp [on_ok, hall]
    have hpub : (on_ok sts true hook).published = false := by
      by_cases hall : sts.all (· == Status.S_OK) = true <;> cases hook <;>
        simp [on_ok, hall]
    simp [run_on_ok, hfin, hpub, ih]

/-- Helper: over any sequence of `on_ok` calls starting from a workflow
that is not finalized, at most one call publishes the S_OK signal. -/
theorem run_on_ok_le_one (trace : List (List Status × Except String RetVal)) :
    (run_on_ok false trace).2 ≤ 1 := by
  induction trace with
  | nil => simp [run_on_ok]
  | cons step rest ih =>
    obtain ⟨sts, hook⟩ := step
    by_cases hpub : (on_ok sts false hook).published = true
    · have hfin := ((on_ok_flag_facts sts false hook).1 hpub).2.2
      simp [run_on_ok, hpub, hfin, run_on_ok_after_final]
    · have hpub2 : (on_ok sts false hook).published = false := by
        simpa using hpub
      have hfin := (on_ok_flag_facts sts false hook).2 hpub2
      simpa [run_on_ok, hpub2, hfin] using ih

/-- C2: the S_OK signal of a workflow is published at most once: `on_ok`
publishes only when every task is at S_OK and the workflow is not yet
finalized, latching the flag in the same call; with the flag latched a
later call returns the returncode-0 already-finalized result without
publishing; with some task not at S_OK it returns a returncode-1 result
without publishing or finalizing; and any sequence of `on_ok` calls over
the lifetime publishes at most once. -/
theorem on_ok_publish_exactly_once :
    (∀ (sts : List Status) (fin : Bool) (hook : Except String RetVal),
      (on_ok sts fin hook).published = true →
      sts.all (· == Status.S_OK) = true ∧ fin = false ∧
      (on_ok sts fin hook).finalized = true) ∧
    (∀ (sts : List Status) (hook : Except String RetVal),
      sts.all (· == Status.S_OK) = true →
      on_ok sts true hook =
        ⟨Except.ok ⟨0, "Workflow has been already finalized"⟩, true, false⟩) ∧
    (∀ (sts : List Status) (fin : Bool) (hook : Except String RetVal),
      sts.all (· == Status.S_OK) = false →
      on_ok sts fin hook = ⟨Except.ok ⟨1, "Not all tasks are OK!"⟩, fin, false⟩) ∧
    (∀ trace : List (List Status × Except String RetVal),
      (run_on_ok false trace).2 ≤ 1) := by
  refine ⟨fun sts fin hook => (on_ok_flag_facts sts fin hook).1,
    fun sts hook hall => ?_, fun sts fin hook hall => ?_, run_on_ok_le_one⟩
  · simp [on_ok, hall]
  · simp [on_ok, hall]

/-- Witness for the C2 theorem at concrete inputs. -/
theorem on_ok_publish_exactly_once_witness :
    ([Status.S_OK].all (· == Status.S_OK) = true ∧ false = false ∧
      (on_ok [Status.S_OK] false (Except.ok ⟨0, "done"⟩)).finalized = true) ∧
    (on_ok [Status.S_OK] true (Except.ok ⟨0, "done"⟩) =
      ⟨Except.ok ⟨0, "Workflow has been already finalized"⟩, true, false⟩) ∧
    (on_ok [Status.S_RUN] false (Except.ok ⟨0, "done"⟩) =
      ⟨Except.ok ⟨1, "Not all tasks are OK!"⟩, false, false⟩) ∧
    (run_on_ok false
      [([Status.S_OK], Except.ok ⟨0, "done"⟩),
       ([Status.S_OK], Except.ok ⟨0, "done"⟩)]).2 ≤ 1 :=
  ⟨on_ok_publish_exactly_once.1 [Status.S_OK] false (Except.ok ⟨0, "done"⟩)
      (by decide),
   on_ok_publish_exactly_once.2.1 [Status.S_OK] (Except.ok ⟨0, "done"⟩)
      (by decide),
   on_ok_publish_exactly_once.2.2.1 [Status.S_RUN] false (Except.ok ⟨0, "done"⟩)
      (by decide),
   on_ok_publish_exactly_once.2.2.2 _⟩

/-- C4 counterexample: with the single task at S_OK, the workflow not yet
finalized, and an `on_all_ok` hook that raises, `on_ok` does not return a
result at all, let alone one with a non-zero returncode: the source wraps
the hook call in no try block, so the exception escapes. -/
theorem on_ok_exception_escapes :
    ¬ ∃ r : RetVal,
        (on_ok [Status.S_OK] false (Except.error "boom")).result =
          Except.ok r ∧ r.returncode ≠ 0 := by
  rintro ⟨r, hr, -⟩
  have hval : (on_ok [Status.S_OK] false (Except.error "boom")).result =
      Except.error "boom" := rfl
  rw [hval] at hr
  exact Except.noConfusion hr

/-- C4 amended: when every task is at S_OK and the workflow is not yet
finalized, an exception raised by `on_all_ok` propagates out of `on_ok`
uncaught; the workflow stays non-finalized and no S_OK signal is
published. -/
theorem on_ok_exception_propagates (sts : List Status) (e : String)
    (h : sts.all (· == Status.S_OK) = true) :
    on_ok sts false (Except.error e) =
      { result := Except.error e, finalized := false, published := false } := by
  simp [on_ok, h]

/-- Witness for the C4 amended theorem at a concrete input. -/
theorem on_ok_exception_propagates_witness :
    [Status.S_OK].all (· == Status.S_OK) = true ∧
    on_ok [Status.S_OK] false (Except.error "boom") =
      { result := Except.error "boom", finalized := false, published := false } :=
  ⟨by decide, on_ok_exception_propagates [Status.S_OK] "boom" (by decide)⟩

/-- C7: `check_status` applies the readiness rule to every task in place;
a task whose status (after the per-task poll) is at most S_SUB with every
upstream dependency status S_OK ends at S_READY, a task with no
dependencies included; and a task not already at S_READY is moved to
S_READY only when every upstream dependency status is S_OK. -/
theorem check_status_ready (tasks : List PyTask) (t : PyTask) :
    (∀ i : Nat, (check_status tasks).get? i = (tasks.get? i).map PyTask.ready_step) ∧
    (t.status ≤ Status.S_SUB → t.deps_status.all (· == Status.S_OK) = true →
      (PyTask.ready_step t).status = Status.S_READY) ∧
    ((PyTask.ready_step t).status = Status.S_READY → t.status ≠ Status.S_READY →
      t.deps_status.all (· == Status.S_OK) = true) ∧
    (t.deps_status = [] → t.status ≤ Status.S_SUB →
      (PyTask.ready_step t).status = Status.S_READY) := by
  refine ⟨fun i => ?_, fun h1 h2 => ?_, fun hready hne => ?_, fun hdeps h1 => ?_⟩
  · simp [check_status]
  · simp only [PyTask.ready_step]
    rw [if_pos ⟨h1, h2⟩]
  · by_cases hc : t.status ≤ Status.S_SUB ∧ t.deps_status.all (· == Status.S_OK) = true
    · exact hc.2
    · exfalso
      apply hne
      have hsame := hready
      simp only [PyTask.ready_step] at hsame
      rw [if_neg hc] at hsame
      exact hsame
  · simp only [PyTask.ready_step]
    rw [if_pos ⟨h1, by simp [hdeps]⟩]

/-- Witness for the C7 theorem at a concrete task. -/
theorem check_status_ready_witness :
    (Status.S_INIT ≤ Status.S_SUB) ∧
    ([Status.S_OK].all (· == Status.S_OK) = true) ∧
    (PyTask.ready_step ⟨Status.S_INIT, [Status.S_OK], 1⟩).status = Status.S_READY :=
  ⟨by decide, by decide,
   (check_status_ready [] ⟨Status.S_INIT, [Status.S_OK], 1⟩).2.1
     (by decide) (by decide)⟩

/-- Helper: the accumulating loops of the CPU queries equal a sum over a
status filter. -/
theorem ncpus_foldl_eq (p : PyTask → Bool) (tasks : List PyTask) :
    ∀ start : Nat,
      tasks.foldl (fun n t => if p t then n + t.tot_ncpus else n) start =
        start + ((tasks.filter p).map PyTask.tot_ncpus).sum := by
  induction tasks with
  | nil => intro start; simp
  | cons t ts ih =>
    intro start
    by_cases h : p t = true
    · simp [List.filter_cons, h, ih, Nat.add_assoc]
    · simp [List.filter_cons, h, ih]

/-- Helper: membership of a status in the two-element S_SUB, S_RUN list is
the disjunction of the two equality tests. -/
theorem contains_sub_run (s : Status) :
    ([Status.S_SUB, Status.S_RUN].contains s) =
      (s == Status.S_SUB || s == Status.S_RUN) := by
  cases s <;> rfl

/-- Helper: summing the correctly spelled allocated attribute over the
workflows of a flow succeeds with the sum of the per-workflow values. -/
theorem pysum_allocated (ws : List (List PyTask)) :
    pysum_attr "ncpus_allocated" ws = some ((ws.map ncpus_allocated).sum) := by
  induction ws with
  | nil => rfl
  | cons w ws ih =>
    have hg : work_getattr w "ncpus_allocated" = some (ncpus_allocated w) := rfl
    simp [pysum_attr, hg, ih]

/-- Helper: summing the correctly spelled inuse attribute over the
workflows of a flow succeeds with the sum of the per-workflow values. -/
theorem pysum_inuse (ws : List (List PyTask)) :
    pysum_attr "ncpus_inuse" ws = some ((ws.map ncpus_inuse).sum) := by
  induction ws with
  | nil => rfl
  | cons w ws ih =>
    have hg : work_getattr w "ncpus_inuse" = some (ncpus_inuse w) := rfl
    simp [pysum_attr, hg, ih]

/-- C9: the per-workflow CPU queries equal the status-partitioned sums of
`tot_ncpus` (reserved over S_SUB, allocated over S_SUB or S_RUN, inuse
over S_RUN); the flow-level allocated and inuse queries are the sums of
the per-workflow values; but the flow-level reserved query reads the
misspelled attribute `ncpus_reverved` and so raises AttributeError (none)
on every flow with at least one workflow.  All queries are pure functions
of the task statuses. -/
theorem ncpus_accounting :
    (∀ tasks : List PyTask, ncpus_reserved tasks =
      ((tasks.filter (fun t => t.status == Status.S_SUB)).map PyTask.tot_ncpus).sum) ∧
    (∀ tasks : List PyTask, ncpus_allocated tasks =
      ((tasks.filter (fun t => t.status == Status.S_SUB || t.status == Status.S_RUN)).map
        PyTask.tot_ncpus).sum) ∧
    (∀ tasks : List PyTask, ncpus_inuse tasks =
      ((tasks.filter (fun t => t.status == Status.S_RUN)).map PyTask.tot_ncpus).sum) ∧
    (∀ f : PyFlow, flow_ncpus_allocated f = some ((f.works.map ncpus_allocated).sum)) ∧
    (∀ f : PyFlow, flow_ncpus_inuse f = some ((f.works.map ncpus_inuse).sum)) ∧
    (∀ f : PyFlow, f.works ≠ [] → flow_ncpus_reserved f = none) := by
  refine ⟨fun tasks => ?_, fun tasks => ?_, fun tasks => ?_,
    fun f => pysum_allocated f.works, fun f => pysum_inuse f.works,
    fun f hne => ?_⟩
  · simpa using ncpus_foldl_eq (fun t => t.status == Status.S_SUB) tasks 0
  · have base := ncpus_foldl_eq
      (fun t => [Status.S_SUB, Status.S_RUN].contains t.status) tasks 0
    have hfilter : tasks.filter (fun t => [Status.S_SUB, Status.S_RUN].contains t.status)
        = tasks.filter (fun t => t.status == Status.S_SUB || t.status == Status.S_RUN) :=
      List.filter_congr (fun t _ => contains_sub_run t.status)
    calc ncpus_allocated tasks
        = 0 + ((tasks.filter
            (fun t => [Status.S_SUB, Status.S_RUN].contains t.status)).map
              PyTask.tot_ncpus).sum := base
      _ = ((tasks.filter
            (fun t => t.status == Status.S_SUB || t.status == Status.S_RUN)).map
              PyTask.tot_ncpus).sum := by rw [hfilter, Nat.zero_add]
  · simpa using ncpus_foldl_eq (fun t => t.status == Status.S_RUN) tasks 0
  · match hw : f.works with
    | [] => exact absurd hw hne
    | w :: ws =>
      have hg : work_getattr w "ncpus_reverved" = none := rfl
      simp [flow_ncpus_reserved, hw, pysum_attr, hg]

/-- Witness for the C9 theorem at a concrete flow. -/
theorem ncpus_accounting_witness :
    flow_ncpus_reserved ⟨[[⟨Status.S_SUB, [], 4⟩]]⟩ = none :=
  ncpus_accounting.2.2.2.2.2 ⟨[[⟨Status.S_SUB, [], 4⟩]]⟩ (by simp)

/-- Helper: `find_can_run` returns none exactly on lists with no runnable
task, and otherwise the index of the first runnable task. -/
theorem find_can_run_spec (tasks : List PyTask) :
    (find_can_run tasks = none → ∀ t ∈ tasks, t.can_run = false) ∧
    (∀ i : Nat, find_can_run tasks = some i →
      ∃ t : PyTask, tasks.get? i = some t ∧ t.can_run = true ∧
        ∀ (j : Nat) (t2 : PyTask), j < i → tasks.get? j = some t2 →
          t2.can_run = false) := by
  induction tasks with
  | nil =>
    refine ⟨fun _ t ht => absurd ht (List.not_mem_nil t), fun i hi => ?_⟩
    simp [find_can_run] at hi
  | cons t ts ih =>
    by_cases hrun : t.can_run = true
    · refine ⟨fun hnone => ?_, fun i hi => ?_⟩
      · simp [find_can_run, hrun] at hnone
      · simp [find_can_run, hrun] at hi
        refine ⟨t, ?_, hrun, ?_⟩
        · rw [← hi]; rfl
        · intro j t2 hj _
          rw [← hi] at hj
          exact absurd hj (Nat.not_lt_zero j)
    · have hrunf : t.can_run = false := by
        cases hcr : t.can_run
        · rfl
        · exact absurd hcr hrun
      refine ⟨fun hnone => ?_, fun i hi => ?_⟩
      · intro t2 ht2
        rcases List.mem_cons.mp ht2 with heq | hmem
        · rw [heq]; exact hrunf
        · simp [find_can_run, hrun] at hnone
          exact (ih.1 hnone) t2 hmem
      · simp [find_can_run, hrun] at hi
        rcases hi with ⟨i0, hrec, hi0⟩
        rcases ih.2 i0 hrec with ⟨t0, hget, hcan, hfirst⟩
        refine ⟨t0, ?_, hcan, ?_⟩
        · rw [← hi0]
          simpa using hget
        · intro j t2 hj hget2
          match j with
          | 0 =>
            have : t2 = t := by simpa using hget2.symm
            rw [this]; exact hrunf
          | Nat.succ j0 =>
            have hj0 : j0 < i0 := by omega
            exact hfirst j0 t2 hj0 (by simpa using hget2)

/-- C5 counterexample: a workflow whose single task is at S_ERROR has every
task completed (status at least S_DONE), so `fetch_task_to_run` raises the
all-done StopIteration even though not every task is at S_OK, refuting the
stated biconditional. -/
theorem fetch_task_alldone_without_ok :
    ¬ (∀ tasks : List PyTask,
        fetch_task_to_run tasks = FetchOut.allDone ↔
          (tasks.all (fun t => decide (Status.S_DONE ≤ t.status)) = true ∧
           tasks.all (fun t => t.status == Status.S_OK) = true)) := by
  intro h
  have hbad := h [⟨Status.S_ERROR, [], 1⟩]
  revert hbad
  decide

/-- C5 amended: `fetch_task_to_run` raises the all-done StopIteration
exactly when every task is completed (status at least S_DONE, whether or
not all are at S_OK); otherwise it returns the first task in index order
with status S_READY and all dependencies at S_OK; and when no task is
runnable but some task is not completed it returns None after logging the
possible-deadlock warning. -/
theorem fetch_task_spec (tasks : List PyTask) :
    (fetch_task_to_run tasks = FetchOut.allDone ↔
      tasks.all PyTask.is_completed = true) ∧
    (∀ i : Nat, fetch_task_to_run tasks = FetchOut.task i →
      tasks.all PyTask.is_completed = false ∧
      ∃ t : PyTask, tasks.get? i = some t ∧ t.can_run = true ∧
        ∀ (j : Nat) (t2 : PyTask), j < i → tasks.get? j = some t2 →
          t2.can_run = false) ∧
    (fetch_task_to_run tasks = FetchOut.warnNone →
      tasks.all PyTask.is_completed = false ∧
      ∀ t ∈ tasks, t.can_run = false) := by
  by_cases hall : tasks.all PyTask.is_completed = true
  · refine ⟨⟨fun _ => hall, fun _ => ?_⟩, fun i hi => ?_, fun hw => ?_⟩
    · simp [fetch_task_to_run, hall]
    · simp [fetch_task_to_run, hall] at hi
    · simp [fetch_task_to_run, hall] at hw
  · have hallf : tasks.all PyTask.is_completed = false := by
      cases hc : tasks.all PyTask.is_completed
      · rfl
      · exact absurd hc hall
    refine ⟨⟨fun habs => ?_, fun hc => absurd hc hall⟩, fun i hi => ?_, fun hw => ?_⟩
    · rcases hfind : find_can_run tasks with - | i <;>
        simp [fetch_task_to_run, hallf, hfind] at habs
    · rcases hfind : find_can_run tasks with - | i0
      · simp [fetch_task_to_run, hallf, hfind] at hi
      · simp [fetch_task_to_run, hallf, hfind] at hi
        exact ⟨hallf, by rw [← hi]; exact (find_can_run_spec tasks).2 i0 hfind⟩
    · rcases hfind : find_can_run tasks with - | i0
      · exact ⟨hallf, (find_can_run_spec tasks).1 hfind⟩
      · simp [fetch_task_to_run, hallf, hfind] at hw

/-- Witness for the C5 amended theorem on the two-task scenario in which
the first task failed and the second still waits on it. -/
theorem fetch_task_spec_witness :
    (fetch_task_to_run
        [⟨Status.S_ERROR, [], 1⟩, ⟨Status.S_INIT, [Status.S_ERROR], 1⟩] =
      FetchOut.warnNone) ∧
    ([(⟨Status.S_ERROR, [], 1⟩ : PyTask),
      ⟨Status.S_INIT, [Status.S_ERROR], 1⟩].all PyTask.is_completed = false ∧
      ∀ t ∈ [(⟨Status.S_ERROR, [], 1⟩ : PyTask),
        ⟨Status.S_INIT, [Status.S_ERROR], 1⟩], t.can_run = false) :=
  ⟨by decide,
   (fetch_task_spec
      [⟨Status.S_ERROR, [], 1⟩, ⟨Status.S_INIT, [Status.S_ERROR], 1⟩]).2.2
     (by decide)⟩

/-- Helper: with a positive cap the loop runs at most
`max_niter + 1 - niter` more iterations. -/
theorem submit_go_cap (max_niter : Int) (exits : Nat → Bool)
    (hpos : 0 < max_niter) :
    ∀ (producer : List Nat) (niter : Nat),
      (submit_go max_niter exits niter producer).length ≤
        max_niter.toNat + 1 - niter := by
  intro producer
  induction producer with
  | nil => intro niter; simp [submit_go]
  | cons s rest ih =>
    intro niter
    by_cases hbrk : (niter : Int) > max_niter ∧ max_niter > 0
    · simp [submit_go, hbrk]
    · have hle : (niter : Int) ≤ max_niter := by
        by_contra hgt
        exact hbrk ⟨by omega, hpos⟩
      by_cases hex : exits niter = true
      · simp [submit_go, hbrk, hex]
        omega
      · simp [submit_go, hbrk, hex]
        have hrec := ih (niter + 1)
        omega

/-- Helper: the loop consumes at most one producer value per iteration. -/
theorem submit_go_producer_len (max_niter : Int) (exits : Nat → Bool) :
    ∀ (producer : List Nat) (niter : Nat),
      (submit_go max_niter exits niter producer).length ≤ producer.length := by
  intro producer
  induction producer with
  | nil => intro niter; simp [submit_go]
  | cons s rest ih =>
    intro niter
    by_cases hbrk : (niter : Int) > max_niter ∧ max_niter > 0
    · simp [submit_go, hbrk]
    · by_cases hex : exits niter = true
      · simp [submit_go, hbrk, hex]
      · simp only [submit_go, List.length_cons]
        rw [if_neg hbrk, if_neg hex]
        simpa using ih (niter + 1)

/-- Helper: a non-positive cap never triggers the break, so the capped
loop agrees with the cap-free loop. -/
theorem submit_go_nocap_eq (max_niter : Int) (exits : Nat → Bool)
    (hmax : max_niter ≤ 0) :
    ∀ (producer : List Nat) (niter : Nat),
      submit_go max_niter exits niter producer =
        submit_nocap exits niter producer := by
  intro producer
  induction producer with
  | nil => intro niter; rfl
  | cons s rest ih =>
    intro niter
    have hbrk : ¬ ((niter : Int) > max_niter ∧ max_niter > 0) := by omega
    by_cases hex : exits niter = true
    · simp [submit_go, submit_nocap, hbrk, hex]
    · simp only [submit_go, submit_nocap]
      rw [if_neg hbrk, if_neg hex, if_neg hex, ih (niter + 1)]

/-- C6: with a positive `max_niter` the iterative submit loop performs at
most `max_niter` iterations; each iteration consumes exactly one strategy
from the producer, so no more tasks than producer values are registered;
with `max_niter` at most zero the loop equals the cap-free loop; and with
`max_niter = 5` and `exit_iteration` signalling exit on iteration 3,
exactly the iterations 1, 2, 3 register and run a task. -/
theorem iterative_submit_bounds :
    (∀ (max_niter : Int) (exits : Nat → Bool) (producer : List Nat),
      0 < max_niter →
      (submit_tasks max_niter exits producer).length ≤ max_niter.toNat) ∧
    (∀ (max_niter : Int) (exits : Nat → Bool) (producer : List Nat),
      (submit_tasks max_niter exits producer).length ≤ producer.length) ∧
    (∀ (max_niter : Int) (exits : Nat → Bool) (producer : List Nat),
      max_niter ≤ 0 →
      submit_tasks max_niter exits producer = submit_nocap exits 1 producer) ∧
    (submit_tasks 5 (fun n => n == 3) [10, 20, 30, 40, 50] = [1, 2, 3]) := by
  refine ⟨fun m e p hpos => ?_,
    fun m e p => submit_go_producer_len m e p 1,
    fun m e p hm => submit_go_nocap_eq m e hm p 1,
    by decide⟩
  have hcap := submit_go_cap m e hpos p 1
  unfold submit_tasks
  omega

/-- Witness for the C6 theorem at concrete inputs. -/
theorem iterative_submit_bounds_witness :
    ((0 : Int) < 5 ∧
      (submit_tasks 5 (fun n => n == 3) [10, 20, 30, 40, 50]).length ≤
        (5 : Int).toNat) ∧
    ((0 : Int) ≤ 0 ∧
      submit_tasks 0 (fun _ => false) [10, 20] =
        submit_nocap (fun _ => false) 1 [10, 20]) :=
  ⟨⟨by decide,
    iterative_submit_bounds.1 5 (fun n => n == 3) [10, 20, 30, 40, 50]
      (by decide)⟩,
   ⟨by decide,
    iterative_submit_bounds.2.2.1 0 (fun _ => false) [10, 20] (by decide)⟩⟩

/-- Helper: updating only the manager leaves the workdir attribute alone. -/
theorem manager_update_workdir (wf_manager : Nat) (t : ATask) :
    (if t.manager.isNone then { t with manager := some wf_manager } else t).workdir
      = t.workdir := by
  by_cases hm : t.manager.isNone = true <;> simp [hm]

/-- Helper: a successful `alloc_one` yields the canonical per-task
workdir. -/
theorem alloc_one_ok (wf_workdir : String) (wf_manager : Nat) (i : Nat) :
    ∀ t t1 : ATask, alloc_one wf_workdir wf_manager i t = Except.ok t1 →
      t1.workdir = some (pjoin wf_workdir (task_dirname i)) := by
  rintro ⟨m, wdo⟩ t1 h
  rcases wdo with - | w
  · rcases m with - | mv
    · simp [alloc_one] at h
      subst h
      rfl
    · simp [alloc_one] at h
      subst h
      rfl
  · by_cases hne : w = pjoin wf_workdir (task_dirname i)
    · subst hne
      rcases m with - | mv
      · simp [alloc_one] at h
        subst h
        rfl
      · simp [alloc_one] at h
        subst h
        rfl
    · rcases m with - | mv
      · simp [alloc_one, hne] at h
      · simp [alloc_one, hne] at h

/-- Helper: a task whose workdir differs from the canonical path makes
`alloc_one` raise ValueError. -/
theorem alloc_one_mismatch (wf_workdir : String) (wf_manager : Nat) (i : Nat)
    (t : ATask) (w : String) (hw : t.workdir = some w)
    (hne : w ≠ pjoin wf_workdir (task_dirname i)) :
    alloc_one wf_workdir wf_manager i t = Except.error "ValueError" := by
  simp only [alloc_one]
  rw [manager_update_workdir, hw]
  simp [hne]

/-- Helper: the only exception `alloc_one` raises is ValueError. -/
theorem alloc_one_error (wf_workdir : String) (wf_manager : Nat) (i : Nat) :
    ∀ (t : ATask) (e : String),
      alloc_one wf_workdir wf_manager i t = Except.error e →
      e = "ValueError" := by
  rintro ⟨m, wdo⟩ e h
  rcases wdo with - | w
  · rcases m with - | mv
    · simp [alloc_one] at h
    · simp [alloc_one] at h
  · by_cases hne : w = pjoin wf_workdir (task_dirname i)
    · subst hne
      rcases m with - | mv
      · simp [alloc_one] at h
      · simp [alloc_one] at h
    · rcases m with - | mv
      · simp [alloc_one, hne] at h
        exact h.symm
      · simp [alloc_one, hne] at h
        exact h.symm

/-- Helper: a successful allocation leaves every task bound to the
canonical workdir for its index. -/
theorem allocate_go_ok (wf_workdir : String) (wf_manager : Nat) :
    ∀ (tasks : List ATask) (k : Nat) (ts : List ATask),
      allocate_go wf_workdir wf_manager k tasks = Except.ok ts →
      ∀ (i : Nat) (t2 : ATask), ts.get? i = some t2 →
        t2.workdir = some (pjoin wf_workdir (task_dirname (k + i))) := by
  intro tasks
  induction tasks with
  | nil =>
    intro k ts hok i t2 hget
    simp only [allocate_go, Except.ok.injEq] at hok
    rw [← hok] at hget
    simp at hget
  | cons t rest ih =>
    intro k ts hok i t2 hget
    simp only [allocate_go] at hok
    rcases halloc : alloc_one wf_workdir wf_manager k t with e | t1 <;>
      rw [halloc] at hok
    · exact Except.noConfusion hok
    · rcases hrec : allocate_go wf_workdir wf_manager (k + 1) rest with e2 | rest2 <;>
        rw [hrec] at hok
      · exact Except.noConfusion hok
      · simp only [Except.map, Except.ok.injEq] at hok
        rw [← hok] at hget
        match i with
        | 0 =>
          have ht2 : t2 = t1 := by simpa using hget.symm
          rw [ht2, Nat.add_zero]
          exact alloc_one_ok wf_workdir wf_manager k t t1 halloc
        | Nat.succ i0 =>
          have hget0 : rest2.get? i0 = some t2 := by simpa using hget
          have := ih (k + 1) rest2 hrec i0 t2 hget0
          rw [show k + 1 + i0 = k + (i0 + 1) from by omega] at this
          exact this

/-- Helper: a task whose pre-existing workdir differs from the canonical
path for its index makes the allocation loop raise ValueError. -/
theorem allocate_go_mismatch (wf_workdir : String) (wf_manager : Nat) :
    ∀ (tasks : List ATask) (k i : Nat) (t : ATask) (w : String),
      tasks.get? i = some t → t.workdir = some w →
      w ≠ pjoin wf_workdir (task_dirname (k + i)) →
      allocate_go wf_workdir wf_manager k tasks = Except.error "ValueError" := by
  intro tasks
  induction tasks with
  | nil =>
    intro k i t w hget
    simp at hget
  | cons t0 rest ih =>
    intro k i t w hget hw hne
    match i with
    | 0 =>
      have ht : t0 = t := by simpa using hget
      subst ht
      have hmm := alloc_one_mismatch wf_workdir wf_manager k t0 w hw
        (by simpa using hne)
      simp [allocate_go, hmm]
    | Nat.succ i0 =>
      rcases halloc : alloc_one wf_workdir wf_manager k t0 with e | t1
      · have he := alloc_one_error wf_workdir wf_manager k t0 e halloc
        subst he
        simp [allocate_go, halloc]
      · have hget0 : rest.get? i0 = some t := by simpa using hget
        have hrec := ih (k + 1) i0 t w hget0 hw
          (by rw [show k + 1 + i0 = k + (i0 + 1) from by omega]; exact hne)
        simp [allocate_go, halloc, hrec, Except.map]

/-- C8: a workdir can be bound at most once: `set_workdir` with the same
path as the stored (absolutized) one is a no-op, and with a different path
raises ValueError leaving the workdir unchanged; `Workflow.allocate`
enforces the same rule per task, binding each task to the canonical
`workdir/task_i` on success and raising ValueError when a pre-existing
task workdir differs from the canonical path. -/
theorem workdir_rebind_rules (abspath : String → String)
    (hid : ∀ x, abspath (abspath x) = abspath x) :
    (∀ p : String, set_workdir abspath none p = Except.ok (abspath p)) ∧
    (∀ w0 : String, set_workdir abspath (some (abspath w0)) (abspath w0) =
      Except.ok (abspath w0)) ∧
    (∀ w p : String, w ≠ p →
      set_workdir abspath (some w) p = Except.error "ValueError") ∧
    (∀ (wd : String) (mgr : Nat) (tasks ts : List ATask),
      allocate wd mgr tasks = Except.ok ts →
      ∀ (i : Nat) (t2 : ATask), ts.get? i = some t2 →
        t2.workdir = some (pjoin wd (task_dirname i))) ∧
    (∀ (wd : String) (mgr : Nat) (tasks : List ATask)
      (i : Nat) (t : ATask) (w : String),
      tasks.get? i = some t → t.workdir = some w →
      w ≠ pjoin wd (task_dirname i) →
      allocate wd mgr tasks = Except.error "ValueError") := by
  refine ⟨fun p => rfl, fun w0 => ?_, fun w p hne => ?_,
    fun wd mgr tasks ts hok i t2 hget => ?_, fun wd mgr tasks i t w hget hw hne => ?_⟩
  · simp [set_workdir, hid]
  · simp [set_workdir, hne]
  · have := allocate_go_ok wd mgr tasks 0 ts hok i t2 hget
    rw [show (0 : Nat) + i = i from by omega] at this
    exact this
  · exact allocate_go_mismatch wd mgr tasks 0 i t w hget hw
      (by rw [show (0 : Nat) + i = i from by omega]; exact hne)

/-- Witness for the C8 theorem at concrete inputs. -/
theorem workdir_rebind_rules_witness :
    (set_workdir id (some (id "w")) (id "w") = Except.ok (id "w")) ∧
    (set_workdir id (some "w") "v" = Except.error "ValueError") ∧
    (allocate "wd" 7 [⟨none, some "bad"⟩] = Except.error "ValueError") :=
  ⟨(workdir_rebind_rules id (fun _ => rfl)).2.1 "w",
   (workdir_rebind_rules id (fun _ => rfl)).2.2.1 "w" "v" (by decide),
   (workdir_rebind_rules id (fun _ => rfl)).2.2.2.2 "wd" 7
     [⟨none, some "bad"⟩] 0 ⟨none, some "bad"⟩ "bad" rfl rfl (by decide)⟩

end Abinitio
